import Mathlib

/-!
Verification development for the `quant-trading` repository.

The definitions below are a shallow embedding of the Python sources:
  * `src/auto_trader.py` — `AutoTrader` position bookkeeping
    (`on_order_filled`, `trigger_buy`, `on_real_tick`),
  * `src/indicators.py` — `check_daily_uptrend`,
  * `src/websocket_streamer.py` — `KiwoomWebSocketStreamer`
    (`connect`, `send_message`, `receive_messages`, `run`),
  * `src/auth.py` — token refresh (`fetch_access_token`) and lock discipline.

Python machine integers are unbounded and all quantities/prices handled by
the trader are non-negative integers, so they are modelled as `Nat`
(Python `//` on non-negative integers is `Nat` division).  The profit
targets `TARGET_PROFIT_FIRST`/`TARGET_PROFIT_SECOND` are binary floating
point numbers in the source; they are modelled as exact rationals.  For
the constants used by the program (`0.02`, `0.03`) and the prices in the
concrete scenarios below, `int(avg * (1 + target))` computed in IEEE
doubles coincides with the rational floor `⌊avg * (1 + target)⌋`.
-/

namespace QuantTrading

/-- `config.py`: `MAX_ORDERBOOK_LEVELS = 5`. -/
def MAX_ORDERBOOK_LEVELS : Nat := 5

/-- `config.py`: `TARGET_PROFIT_FIRST = 0.02`, as an exact rational. -/
def TARGET_PROFIT_FIRST : ℚ := 2 / 100

/-- `config.py`: `TARGET_PROFIT_SECOND = 0.03`, as an exact rational. -/
def TARGET_PROFIT_SECOND : ℚ := 3 / 100

/-- One entry of `AutoTrader.positions` (`auto_trader.py`, lines 50-59):
a dict with keys `qty`, `avg_price`, `buy_orders`, `first_sold`,
`second_sold`. -/
structure Position where
  qty : Nat
  avg_price : Nat
  buy_orders : List String
  first_sold : Bool
  second_sold : Bool
deriving Repr, DecidableEq

/-- The initial per-symbol position
`{"qty": 0, "avg_price": 0, "buy_orders": [], "first_sold": False,
"second_sold": False}`. -/
def initPosition : Position :=
  { qty := 0, avg_price := 0, buy_orders := [], first_sold := false, second_sold := false }

/-- The `side == "BUY"` branch of `AutoTrader.on_order_filled`
(`auto_trader.py`, lines 200-208).  Note that the branch reads and writes
only `qty` and `avg_price`; `buy_orders` and both flags are untouched. -/
def on_buy_fill (pos : Position) (filled_qty filled_price : Nat) : Position :=
  let prev_qty := pos.qty
  let prev_avg := pos.avg_price
  let new_qty := prev_qty + filled_qty
  let new_avg := if prev_qty = 0 then filled_price
                 else (prev_avg * prev_qty + filled_price * filled_qty) / new_qty
  { pos with qty := new_qty, avg_price := new_avg }

/-- The `side == "SELL"` branch of `AutoTrader.on_order_filled`
(`auto_trader.py`, lines 210-219): `new_qty = max(0, prev_qty - filled_qty)`
(which is `Nat` subtraction), and a full reset of the position when the
quantity reaches 0.  The fill price is used only for logging. -/
def on_sell_fill (pos : Position) (filled_qty filled_price : Nat) : Position :=
  let new_qty := pos.qty - filled_qty
  if new_qty = 0 then
    { pos with qty := 0, avg_price := 0, first_sold := false, second_sold := false,
               buy_orders := [] }
  else
    { pos with qty := new_qty }

/-- Dispatch on the `side` string inside `AutoTrader.on_order_filled`:
sides other than `"BUY"`/`"SELL"` fall through with no mutation. -/
def fill_position (pos : Position) (side : String) (filled_qty filled_price : Nat) : Position :=
  if side = "BUY" then on_buy_fill pos filled_qty filled_price
  else if side = "SELL" then on_sell_fill pos filled_qty filled_price
  else pos

/-- `AutoTrader.on_order_filled` (`auto_trader.py`, lines 194-220) at the
level of the position map `self.positions`: `positions.get(symbol)`
returning `None` (an untracked symbol) is a no-op; otherwise the symbol's
entry is replaced by the filled position.  The `order_id` argument is
bound by the handler but never used in either branch. -/
def on_order_filled (positions : String → Option Position)
    (order_id symbol side : String) (filled_qty filled_price : Nat) :
    String → Option Position :=
  match positions symbol with
  | none => positions
  | some pos =>
      fun s => if s = symbol then some (fill_position pos side filled_qty filled_price)
               else positions s

/-- Total filled quantity of a list of `(qty, price)` BUY fills. -/
def total_qty (fills : List (Nat × Nat)) : Nat :=
  (fills.map Prod.fst).sum

/-- Total cost `Σ qty * price` of a list of `(qty, price)` BUY fills. -/
def total_cost (fills : List (Nat × Nat)) : Nat :=
  (fills.map (fun f => f.1 * f.2)).sum

/-- Folding a sequence of BUY fills through the fill handler. -/
def apply_buy_fills (pos : Position) (fills : List (Nat × Nat)) : Position :=
  fills.foldl (fun p f => on_buy_fill p f.1 f.2) pos

theorem on_buy_fill_qty (pos : Position) (q p : Nat) :
    (on_buy_fill pos q p).qty = pos.qty + q := rfl

theorem on_buy_fill_avg (pos : Position) (q p : Nat) :
    (on_buy_fill pos q p).avg_price =
      if pos.qty = 0 then p else (pos.avg_price * pos.qty + p * q) / (pos.qty + q) := rfl

theorem on_buy_fill_buy_orders (pos : Position) (q p : Nat) :
    (on_buy_fill pos q p).buy_orders = pos.buy_orders := rfl

theorem on_buy_fill_flags (pos : Position) (q p : Nat) :
    (on_buy_fill pos q p).first_sold = pos.first_sold ∧
      (on_buy_fill pos q p).second_sold = pos.second_sold := ⟨rfl, rfl⟩

/-- The order-id collection loop of `AutoTrader.trigger_buy`
(`auto_trader.py`, lines 152-161): for each of the first
`min(MAX_ORDERBOOK_LEVELS, len(bids))` levels, if the level's price is
positive a limit order is submitted and, when the broker's response
carries an `order_id`, that id is appended.  `resp level` models
`place_limit_order_rest(...)["data"]["order_id"]` for that level. -/
def collect_buy_order_ids (bids : List (Nat × Nat)) (resp : Nat → Option String) :
    List String :=
  (List.range (min MAX_ORDERBOOK_LEVELS bids.length)).foldl
    (fun acc level =>
      let price := (bids.getD level (0, 0)).1
      if 0 < price then
        match resp level with
        | some oid => acc ++ [oid]
        | none => acc
      else acc) []

/-- `AutoTrader.trigger_buy` (`auto_trader.py`, lines 140-166).  The guard
on lines 143-145 returns early when `qty > 0` or `buy_orders` is truthy
(non-empty); an empty order book also returns early; otherwise the
collected order ids are written to `buy_orders`.  `bids` models the bid
side of `get_orderbook_rest(symbol)`. -/
def trigger_buy (pos : Position) (bids : List (Nat × Nat)) (resp : Nat → Option String) :
    Position :=
  if 0 < pos.qty ∨ pos.buy_orders ≠ [] then pos
  else if bids = [] then pos
  else { pos with buy_orders := collect_buy_order_ids bids resp }

/-- The spec's `try_begin_entry(symbol)`, realized in the code as the
guard of `trigger_buy` (`auto_trader.py`, lines 143-145): the entry may
begin iff the guard does not fire. -/
def try_begin_entry (pos : Position) : Bool :=
  if 0 < pos.qty ∨ pos.buy_orders ≠ [] then false else true

/-- The dict returned by `place_market_order_rest` (`api.py`, lines
458-478): on HTTP or parse failure a dict with `return_code = -1`,
otherwise the broker's response (success has `return_code = 0`). -/
structure OrderResult where
  return_code : Int
deriving Repr, DecidableEq

/-- The sell order emitted by a tick, if any: first-exit (half) or
second-exit (remainder) with its quantity. -/
inductive ExitAction where
  | hold
  | sellFirst (q : Nat)
  | sellSecond (q : Nat)
deriving Repr, DecidableEq

/-- The price threshold `int(avg_price * (1 + target))` of
`AutoTrader.on_real_tick`, in exact rational arithmetic (`int` truncates
toward zero and the operand is non-negative, hence the floor). -/
def exit_threshold (avg : Nat) (target : ℚ) : Int :=
  ⌊(avg : ℚ) * (1 + target)⌋

/-- `AutoTrader.on_real_tick` (`auto_trader.py`, lines 172-192).
`first_target`/`second_target` are the instance fields set from the
config constants.  `res` models the value returned by
`place_market_order_rest`, which the source binds to `res` and never
inspects (the same `res` stands for whichever sell submission the tick
makes).  Returns the updated position and the sell order submitted. -/
def on_real_tick (first_target second_target : ℚ) (res : OrderResult)
    (pos : Position) (price : Nat) : Position × ExitAction :=
  if pos.qty ≤ 0 ∨ pos.avg_price ≤ 0 then (pos, .hold)
  else if pos.first_sold = false ∧ (price : Int) ≥ exit_threshold pos.avg_price first_target then
    let sell_qty := if 1 < pos.qty then pos.qty / 2 else pos.qty
    if 0 < sell_qty then ({ pos with first_sold := true }, .sellFirst sell_qty)
    else (pos, .hold)
  else if pos.first_sold = true ∧ pos.second_sold = false then
    let rem_qty := pos.qty
    if 0 < rem_qty ∧ (price : Int) ≥ exit_threshold pos.avg_price second_target then
      ({ pos with second_sold := true }, .sellSecond rem_qty)
    else (pos, .hold)
  else (pos, .hold)

/-- Per-symbol position states reachable through the position-mutating
operations of `AutoTrader`: fill handling (`on_order_filled`, with fills
reporting a positive executed quantity), exit triggering (`on_real_tick`)
and entry submission (`trigger_buy`). -/
inductive ReachablePos (ft st : ℚ) : Position → Prop where
  | init : ReachablePos ft st initPosition
  | buy {pos : Position} (q p : Nat) :
      ReachablePos ft st pos → 0 < q → ReachablePos ft st (on_buy_fill pos q p)
  | sell {pos : Position} (q p : Nat) :
      ReachablePos ft st pos → 0 < q → ReachablePos ft st (on_sell_fill pos q p)
  | tick {pos : Position} (res : OrderResult) (price : Nat) :
      ReachablePos ft st pos → ReachablePos ft st (on_real_tick ft st res pos price).1
  | entry {pos : Position} (bids : List (Nat × Nat)) (resp : Nat → Option String) :
      ReachablePos ft st pos → ReachablePos ft st (trigger_buy pos bids resp)

/-! ### `indicators.py` — daily trend filter -/

/-- `pandas` `series.rolling(window=w).mean()` on a column of (clean,
numeric) closes: position `i` is `NaN` (here `none`) while fewer than `w`
observations are available, and otherwise the mean of the window of `w`
values ending at `i`. -/
def rollingMean (w : Nat) (xs : List ℚ) : List (Option ℚ) :=
  (List.range xs.length).map (fun i =>
    if i + 1 < w then none
    else some (((xs.take (i + 1)).drop (i + 1 - w)).sum / (w : ℚ)))

/-- `df.iloc[-1]` on a column: the value in the last row. -/
def lastRow (xs : List (Option ℚ)) : Option ℚ :=
  xs.getD (xs.length - 1) none

/-- `check_daily_uptrend` (`indicators.py`, lines 32-52) on the `종가`
(close) column: fewer than 20 bars (or an empty frame) fail the filter;
otherwise the filter requires the last row's SMA5 and SMA20 to be present
(not `NaN`) with `SMA5 > SMA20` and the latest close above `SMA5`. -/
def check_daily_uptrend (closes : List ℚ) : Bool :=
  if closes.length = 0 ∨ closes.length < 20 then false
  else
    match lastRow (rollingMean 5 closes), lastRow (rollingMean 20 closes) with
    | some sma5, some sma20 =>
        decide (sma5 > sma20 ∧ closes.getD (closes.length - 1) 0 > sma5)
    | _, _ => false

/-- The spec's reading of the filter: the mean of the last `n` closes. -/
def sma_last (closes : List ℚ) (n : Nat) : ℚ :=
  (closes.drop (closes.length - n)).sum / (n : ℚ)

theorem lastRow_rollingMean (w : Nat) (closes : List ℚ) (h0 : 0 < closes.length)
    (hw : w ≤ closes.length) :
    lastRow (rollingMean w closes) = some (sma_last closes w) := by
  have hlen : (rollingMean w closes).length = closes.length := by
    simp [rollingMean]
  have hidx : closes.length - 1 < closes.length := Nat.sub_lt h0 Nat.one_pos
  have hget : (rollingMean w closes)[closes.length - 1]? =
      some (if closes.length - 1 + 1 < w then none
            else some (((closes.take (closes.length - 1 + 1)).drop
              (closes.length - 1 + 1 - w)).sum / (w : ℚ))) := by
    rw [rollingMean, List.getElem?_map, List.getElem?_range hidx]
    rfl
  have hsucc : closes.length - 1 + 1 = closes.length := Nat.succ_pred_eq_of_pos h0
  rw [lastRow, hlen, List.getD_eq_getElem?_getD, hget]
  rw [hsucc, if_neg (Nat.not_lt.mpr hw), List.take_length]
  rfl

/-! ### `websocket_streamer.py` — `KiwoomWebSocketStreamer` -/

/-- Packets the streamer sends: the LOGIN packet (`connect`), a PING
echoed back (`handle_message`), and the REG packet listing the
subscription set (`register_realtime_data`). -/
inductive WsPacket where
  | login
  | pingReply
  | reg (data : List (String × String))
deriving Repr, DecidableEq

/-- Parsed inbound messages, by their `trnm` field (`handle_message`). -/
inductive WsMsg where
  | loginReply (return_code : Int)
  | ping
  | real
  | regReply (return_code : Int)
deriving Repr, DecidableEq

/-- One iteration's outcome of `await self.websocket.recv()` inside
`receive_messages`: a parsed message, a `websockets.ConnectionClosed`, or
any other exception. -/
inductive WsEvent where
  | msg (m : WsMsg)
  | closed
  | err
deriving Repr, DecidableEq

/-- The streamer's mutable state: `self.connected`, `self.keep_running`,
plus instrumentation of the observable effects (how often
`websockets.connect` was attempted, and the packets sent). -/
structure WsState where
  connected : Bool
  keep_running : Bool
  connectAttempts : Nat
  sent : List WsPacket
deriving Repr, DecidableEq

/-- Constructor state: `connected = False`, `keep_running = True`. -/
def initWs : WsState :=
  { connected := false, keep_running := true, connectAttempts := 0, sent := [] }

/-- The `data` list of the REG packet built by `register_realtime_data`
(`websocket_streamer.py`, lines 174-207): the order-execution entry and,
per symbol, the `0B`/`0C`/`0D` entries. -/
def reg_packet_data (symbols : List String) : List (String × String) :=
  ("", "00") :: symbols.bind (fun sym => [(sym, "0B"), (sym, "0C"), (sym, "0D")])

/-- `KiwoomWebSocketStreamer.connect` (`websocket_streamer.py`, lines
42-60).  `env n` tells whether the `n`-th `websockets.connect` attempt
succeeds.  On success the LOGIN packet is sent (via `send_message`, which
sends directly because `connected` is already true); on any exception
`connected` is set to `False`. -/
def ws_connect (env : Nat → Bool) (s : WsState) : WsState :=
  let s1 := { s with connectAttempts := s.connectAttempts + 1 }
  if env s.connectAttempts then
    { s1 with connected := true, sent := s1.sent ++ [WsPacket.login] }
  else
    { s1 with connected := false }

/-- `KiwoomWebSocketStreamer.send_message` (lines 62-70): when not
connected it first calls `connect`, and sends only if connected. -/
def ws_send (env : Nat → Bool) (m : WsPacket) (s : WsState) : WsState :=
  let s1 := if s.connected then s else ws_connect env s
  if s1.connected then { s1 with sent := s1.sent ++ [m] } else s1

/-- `KiwoomWebSocketStreamer.disconnect` (lines 209-215): stop the loop
and close the socket. -/
def ws_disconnect (s : WsState) : WsState :=
  { s with keep_running := false, connected := false }

/-- `KiwoomWebSocketStreamer.handle_message` (lines 86-117): a failed
LOGIN reply disconnects, a successful one registers the subscription set,
PING is echoed, REAL and REG replies only dispatch callbacks / log. -/
def ws_handle (symbols : List String) (env : Nat → Bool) (m : WsMsg) (s : WsState) :
    WsState :=
  match m with
  | .loginReply c => if c ≠ 0 then ws_disconnect s
                     else ws_send env (WsPacket.reg (reg_packet_data symbols)) s
  | .ping => ws_send env WsPacket.pingReply s
  | .real => s
  | .regReply _ => s

/-- `KiwoomWebSocketStreamer.receive_messages` (lines 72-84): loop while
`keep_running and connected`; a `ConnectionClosed` sets
`connected = False` and BREAKS the loop; any other exception is logged
and the loop continues.  Returns the final state together with the
events left unprocessed when the loop exits. -/
def ws_receive (symbols : List String) (env : Nat → Bool) :
    WsState → List WsEvent → WsState × List WsEvent
  | s, [] => (s, [])
  | s, e :: rest =>
      if s.keep_running = true ∧ s.connected = true then
        match e with
        | .closed => ({ s with connected := false }, rest)
        | .err => ws_receive symbols env s rest
        | .msg m => ws_receive symbols env (ws_handle symbols env m s) rest
      else (s, e :: rest)

/-- `KiwoomWebSocketStreamer.run` (lines 217-221): connect once, then (if
connected) receive messages until the loop exits.  There is no retry
wrapper around it (`start` calls `run_until_complete(self.run())`
exactly once). -/
def ws_run (symbols : List String) (env : Nat → Bool) (events : List WsEvent) : WsState :=
  let s := ws_connect env initWs
  if s.connected = true then (ws_receive symbols env s events).1 else s

theorem ws_handle_connectAttempts (symbols : List String) (env : Nat → Bool) (m : WsMsg)
    (s : WsState) (h : s.connected = true) :
    (ws_handle symbols env m s).connectAttempts = s.connectAttempts := by
  cases m with
  | loginReply c =>
      by_cases hc : c ≠ 0
      · simp [ws_handle, hc, ws_disconnect]
      · simp [ws_handle, hc, ws_send, h]
  | ping => simp [ws_handle, ws_send, h]
  | real => rfl
  | regReply c => rfl

theorem ws_handle_keep (symbols : List String) (env : Nat → Bool) (m : WsMsg)
    (s : WsState) (h : s.connected = true) (hm : ∀ c, m ≠ WsMsg.loginReply c) :
    (ws_handle symbols env m s).keep_running = s.keep_running := by
  cases m with
  | loginReply c => exact absurd rfl (hm c)
  | ping => simp [ws_handle, ws_send, h]
  | real => rfl
  | regReply c => rfl

theorem ws_receive_connectAttempts (symbols : List String) (env : Nat → Bool)
    (events : List WsEvent) (s : WsState) :
    (ws_receive symbols env s events).1.connectAttempts = s.connectAttempts := by
  induction events generalizing s with
  | nil => rfl
  | cons e rest ih =>
      show ((if s.keep_running = true ∧ s.connected = true then
          match e with
          | .closed => ({ s with connected := false }, rest)
          | .err => ws_receive symbols env s rest
          | .msg m => ws_receive symbols env (ws_handle symbols env m s) rest
        else (s, e :: rest)) : WsState × List WsEvent).1.connectAttempts = s.connectAttempts
      by_cases hg : s.keep_running = true ∧ s.connected = true
      · rw [if_pos hg]
        cases e with
        | closed => rfl
        | err => exact ih s
        | msg m =>
            rw [ih (ws_handle symbols env m s)]
            exact ws_handle_connectAttempts symbols env m s hg.2
      · rw [if_neg hg]

/-! ### `auth.py` — token refresh and the lock discipline

`fetch_access_token` (`auth.py`, lines 43-93) issues the HTTP request to
the token provider with NO lock held; only the installation of
`access_token` and `token_expiry` (lines 81-87) runs under `LOCK`, and
readers (`get_headers`, `get_access_token`, the expiry check in
`token_auto_refresher`) take the same `LOCK`.  Two refreshing contexts
(e.g. `initialize_auth` and the refresher thread, or two callers of
`fetch_access_token`) are modelled as threads `false`/`true`; the token
and its expiry are modelled as version numbers where an install writes
the same fresh version `v` to both fields, first `access_token`, then
`token_expiry`, inside one lock-held section. -/

/-- Program counter of one context running `fetch_access_token`. -/
inductive FetchPc where
  | ready                 -- about to issue the HTTP request (no lock)
  | requested             -- provider responded; about to enter `with LOCK`
  | locked                -- holding `LOCK`, before writing `access_token`
  | wroteToken (v : Nat)  -- `access_token = v` written; `token_expiry` pending
  | installed             -- both fields written, still holding `LOCK`
  | done
deriving Repr, DecidableEq

/-- Shared state of `auth.py`: the `LOCK` holder, both contexts'
positions, the provider-call count, and the two globals. -/
structure AuthState where
  lock : Option Bool
  pcA : FetchPc
  pcB : FetchPc
  httpCalls : Nat
  token : Nat
  expiry : Nat
deriving Repr, DecidableEq

def getPc (i : Bool) (s : AuthState) : FetchPc :=
  if i then s.pcB else s.pcA

def setPc (i : Bool) (p : FetchPc) (s : AuthState) : AuthState :=
  if i then { s with pcB := p } else { s with pcA := p }

/-- Module load state: `access_token = ""`, `token_expiry = None`
(version 0), lock free, both contexts about to refresh. -/
def authInit : AuthState :=
  { lock := none, pcA := .ready, pcB := .ready, httpCalls := 0, token := 0, expiry := 0 }

/-- Interleaved small-step semantics of two contexts running
`fetch_access_token`.  The `request` step (the `requests.post` to the
provider) needs no lock; the two field writes and the release happen
under `LOCK`. -/
inductive AuthStep : AuthState → AuthState → Prop where
  | request (s : AuthState) (i : Bool) (h : getPc i s = .ready) :
      AuthStep s (setPc i .requested { s with httpCalls := s.httpCalls + 1 })
  | acquire (s : AuthState) (i : Bool) (h : getPc i s = .requested) (hl : s.lock = none) :
      AuthStep s (setPc i .locked { s with lock := some i })
  | writeToken (s : AuthState) (i : Bool) (v : Nat) (h : getPc i s = .locked)
      (hl : s.lock = some i) :
      AuthStep s (setPc i (.wroteToken v) { s with token := v })
  | writeExpiry (s : AuthState) (i : Bool) (v : Nat) (h : getPc i s = .wroteToken v)
      (hl : s.lock = some i) :
      AuthStep s (setPc i .installed { s with expiry := v })
  | release (s : AuthState) (i : Bool) (h : getPc i s = .installed)
      (hl : s.lock = some i) :
      AuthStep s (setPc i .done { s with lock := none })

/-- States reachable from module load under the interleaving. -/
inductive AuthReach : AuthState → Prop where
  | init : AuthReach authInit
  | step {s s' : AuthState} : AuthReach s → AuthStep s s' → AuthReach s'

/-- The strengthened lock invariant: with the lock free the two globals
carry the same version, and a lock holder mid-install accounts for any
mismatch. -/
def authInv (s : AuthState) : Prop :=
  (s.lock = none → s.token = s.expiry) ∧
  (∀ i, s.lock = some i →
    (getPc i s = .locked → s.token = s.expiry) ∧
    (getPc i s = .installed → s.token = s.expiry) ∧
    (∀ v, getPc i s = .wroteToken v → s.token = v))

theorem getPc_setPc_same (i : Bool) (p : FetchPc) (s : AuthState) :
    getPc i (setPc i p s) = p := by
  cases i <;> simp [getPc, setPc]

theorem getPc_setPc_ne (i j : Bool) (p : FetchPc) (s : AuthState) (h : i ≠ j) :
    getPc i (setPc j p s) = getPc i s := by
  cases i <;> cases j <;> simp_all [getPc, setPc]

theorem setPc_lock (i : Bool) (p : FetchPc) (s : AuthState) :
    (setPc i p s).lock = s.lock := by
  cases i <;> simp [setPc]

theorem setPc_token (i : Bool) (p : FetchPc) (s : AuthState) :
    (setPc i p s).token = s.token := by
  cases i <;> simp [setPc]

theorem setPc_expiry (i : Bool) (p : FetchPc) (s : AuthState) :
    (setPc i p s).expiry = s.expiry := by
  cases i <;> simp [setPc]

theorem setPc_httpCalls (i : Bool) (p : FetchPc) (s : AuthState) :
    (setPc i p s).httpCalls = s.httpCalls := by
  cases i <;> simp [setPc]

theorem authStep_inv {s s' : AuthState} (hs : AuthStep s s') (h : authInv s) :
    authInv s' := by
  obtain ⟨hfree, hheld⟩ := h
  cases hs with
  | request i hi =>
      refine ⟨fun hl => ?_, fun j hj => ?_⟩
      · rw [setPc_lock] at hl
        rw [setPc_token, setPc_expiry]
        exact hfree hl
      · rw [setPc_lock] at hj
        have hj2 : s.lock = some j := hj
        by_cases hij : j = i
        · subst hij
          rw [getPc_setPc_same]
          refine ⟨fun hc => ?_, fun hc => ?_, fun v hv => ?_⟩
          · exact nomatch hc
          · exact nomatch hc
          · exact nomatch hv
        · rw [getPc_setPc_ne j i _ _ hij, setPc_token, setPc_expiry]
          exact hheld j hj2
  | acquire i hi hl =>
      refine ⟨fun hnone => ?_, fun j hj => ?_⟩
      · rw [setPc_lock] at hnone
        have h2 : (some i : Option Bool) = none := hnone
        exact nomatch h2
      · rw [setPc_lock] at hj
        have hj2 : (some i : Option Bool) = some j := hj
        injection hj2 with hij
        subst hij
        rw [getPc_setPc_same, setPc_token, setPc_expiry]
        refine ⟨fun _ => hfree hl, fun hc => ?_, fun v hv => ?_⟩
        · exact nomatch hc
        · exact nomatch hv
  | writeToken i v hi hl =>
      refine ⟨fun hnone => ?_, fun j hj => ?_⟩
      · rw [setPc_lock] at hnone
        have h2 : s.lock = none := hnone
        rw [h2] at hl
        exact nomatch hl
      · rw [setPc_lock] at hj
        have hj2 : s.lock = some j := hj
        rw [hl] at hj2
        injection hj2 with hij
        subst hij
        rw [getPc_setPc_same, setPc_token, setPc_expiry]
        refine ⟨fun hc => ?_, fun hc => ?_, fun v' hv => ?_⟩
        · exact nomatch hc
        · exact nomatch hc
        · injection hv with hvv
  | writeExpiry i v hi hl =>
      refine ⟨fun hnone => ?_, fun j hj => ?_⟩
      · rw [setPc_lock] at hnone
        have h2 : s.lock = none := hnone
        rw [h2] at hl
        exact nomatch hl
      · rw [setPc_lock] at hj
        have hj2 : s.lock = some j := hj
        rw [hl] at hj2
        injection hj2 with hij
        subst hij
        rw [getPc_setPc_same, setPc_token, setPc_expiry]
        have htok : s.token = v := (hheld i hl).2.2 v hi
        refine ⟨fun hc => ?_, fun _ => htok, fun v' hv => ?_⟩
        · exact nomatch hc
        · exact nomatch hv
  | release i hi hl =>
      refine ⟨fun _ => ?_, fun j hj => ?_⟩
      · rw [setPc_token, setPc_expiry]
        exact (hheld i hl).2.1 hi
      · rw [setPc_lock] at hj
        have h2 : (none : Option Bool) = some j := hj
        exact nomatch h2

theorem authReach_inv {s : AuthState} (h : AuthReach s) : authInv s := by
  induction h with
  | init => exact ⟨fun _ => rfl, fun i hi => nomatch hi⟩
  | step hr hs ih => exact authStep_inv hs ih


theorem on_real_tick_of_qty_zero (ft st : ℚ) (res : OrderResult) (pos : Position)
    (price : Nat) (h : pos.qty = 0) :
    on_real_tick ft st res pos price = (pos, .hold) := by
  simp [on_real_tick, h]

theorem on_real_tick_fst_qty (ft st : ℚ) (res : OrderResult) (pos : Position) (price : Nat) :
    (on_real_tick ft st res pos price).1.qty = pos.qty := by
  simp only [on_real_tick]
  repeat' split
  all_goals rfl

theorem on_real_tick_fst_avg (ft st : ℚ) (res : OrderResult) (pos : Position) (price : Nat) :
    (on_real_tick ft st res pos price).1.avg_price = pos.avg_price := by
  simp only [on_real_tick]
  repeat' split
  all_goals rfl

theorem on_real_tick_fst_buy_orders (ft st : ℚ) (res : OrderResult) (pos : Position)
    (price : Nat) :
    (on_real_tick ft st res pos price).1.buy_orders = pos.buy_orders := by
  simp only [on_real_tick]
  repeat' split
  all_goals rfl

theorem trigger_buy_qty (pos : Position) (bids : List (Nat × Nat))
    (resp : Nat → Option String) : (trigger_buy pos bids resp).qty = pos.qty := by
  unfold trigger_buy
  repeat' split
  all_goals rfl

theorem trigger_buy_avg (pos : Position) (bids : List (Nat × Nat))
    (resp : Nat → Option String) : (trigger_buy pos bids resp).avg_price = pos.avg_price := by
  unfold trigger_buy
  repeat' split
  all_goals rfl

theorem trigger_buy_first_sold (pos : Position) (bids : List (Nat × Nat))
    (resp : Nat → Option String) :
    (trigger_buy pos bids resp).first_sold = pos.first_sold := by
  unfold trigger_buy
  repeat' split
  all_goals rfl

theorem trigger_buy_second_sold (pos : Position) (bids : List (Nat × Nat))
    (resp : Nat → Option String) :
    (trigger_buy pos bids resp).second_sold = pos.second_sold := by
  unfold trigger_buy
  repeat' split
  all_goals rfl

theorem trigger_buy_flags (pos : Position) (bids : List (Nat × Nat))
    (resp : Nat → Option String) :
    (trigger_buy pos bids resp).first_sold = pos.first_sold ∧
      (trigger_buy pos bids resp).second_sold = pos.second_sold :=
  ⟨trigger_buy_first_sold pos bids resp, trigger_buy_second_sold pos bids resp⟩

/-- The flat-state invariant that actually holds on reachable states:
a flat position has zero average cost and both exit flags cleared. -/
def flatInv (pos : Position) : Prop :=
  pos.qty = 0 → pos.avg_price = 0 ∧ pos.first_sold = false ∧ pos.second_sold = false

theorem reachable_flatInv {ft st : ℚ} {pos : Position}
    (h : ReachablePos ft st pos) : flatInv pos := by
  induction h with
  | init => exact fun _ => ⟨rfl, rfl, rfl⟩
  | buy q p hr hq ih =>
      intro h0
      rw [on_buy_fill_qty] at h0
      omega
  | sell q p hr hq ih =>
      rename_i pos'
      intro h0
      unfold on_sell_fill at h0 ⊢
      by_cases hz : pos'.qty - q = 0
      · simp [hz]
      · simp only [if_neg hz] at h0
        exact absurd h0 hz
  | tick res price hr ih =>
      rename_i pos'
      intro h0
      rw [on_real_tick_fst_qty] at h0
      rw [on_real_tick_of_qty_zero ft st res pos' price h0]
      exact ih h0
  | entry bids resp hr ih =>
      rename_i pos'
      intro h0
      rw [trigger_buy_qty] at h0
      obtain ⟨ha, hfs, hss⟩ := ih h0
      exact ⟨(trigger_buy_avg pos' bids resp).trans ha,
        ((trigger_buy_flags pos' bids resp).1).trans hfs,
        ((trigger_buy_flags pos' bids resp).2).trans hss⟩

theorem apply_buy_fills_nil (pos : Position) : apply_buy_fills pos [] = pos := rfl

theorem apply_buy_fills_cons (pos : Position) (f : Nat × Nat) (fs : List (Nat × Nat)) :
    apply_buy_fills pos (f :: fs) = apply_buy_fills (on_buy_fill pos f.1 f.2) fs := rfl

theorem total_qty_cons (f : Nat × Nat) (fs : List (Nat × Nat)) :
    total_qty (f :: fs) = f.1 + total_qty fs := by
  simp [total_qty]

theorem total_cost_cons (f : Nat × Nat) (fs : List (Nat × Nat)) :
    total_cost (f :: fs) = f.1 * f.2 + total_cost fs := by
  simp [total_cost]

theorem apply_buy_fills_qty (fills : List (Nat × Nat)) (pos : Position) :
    (apply_buy_fills pos fills).qty = pos.qty + total_qty fills := by
  induction fills generalizing pos with
  | nil => simp [apply_buy_fills_nil, total_qty]
  | cons f fs ih =>
      rw [apply_buy_fills_cons, ih, on_buy_fill_qty, total_qty_cons, Nat.add_assoc]

/-- The running invariant behind the weighted-mean bound: the recorded
average times the recorded quantity never exceeds the true total cost. -/
theorem apply_buy_fills_cost_le (fills : List (Nat × Nat)) (pos : Position) (c : Nat)
    (h : pos.avg_price * pos.qty ≤ c) :
    (apply_buy_fills pos fills).avg_price * (apply_buy_fills pos fills).qty
      ≤ c + total_cost fills := by
  induction fills generalizing pos c with
  | nil => simpa [apply_buy_fills_nil, total_cost] using h
  | cons f fs ih =>
      rw [apply_buy_fills_cons]
      have hstep : (on_buy_fill pos f.1 f.2).avg_price * (on_buy_fill pos f.1 f.2).qty
          ≤ c + f.1 * f.2 := by
        rw [on_buy_fill_avg, on_buy_fill_qty]
        by_cases h0 : pos.qty = 0
        · rw [if_pos h0, h0, Nat.zero_add]
          calc f.2 * f.1 = f.1 * f.2 := Nat.mul_comm _ _
            _ ≤ c + f.1 * f.2 := Nat.le_add_left _ _
        · rw [if_neg h0]
          calc (pos.avg_price * pos.qty + f.2 * f.1) / (pos.qty + f.1) * (pos.qty + f.1)
              ≤ pos.avg_price * pos.qty + f.2 * f.1 := Nat.div_mul_le_self _ _
            _ ≤ c + f.2 * f.1 := Nat.add_le_add_right h _
            _ = c + f.1 * f.2 := by rw [Nat.mul_comm f.2 f.1]
      calc (apply_buy_fills (on_buy_fill pos f.1 f.2) fs).avg_price *
            (apply_buy_fills (on_buy_fill pos f.1 f.2) fs).qty
          ≤ c + f.1 * f.2 + total_cost fs := ih _ _ hstep
        _ = c + total_cost (f :: fs) := by
            rw [total_cost_cons, Nat.add_assoc]

/-! ### Claim theorems -/

/-- C1, counterexample to the sequence clause: the fills
1@1, 1@2, 1@3 leave an average cost of 1, while the integer-floored
quantity-weighted mean of the fill prices is ⌊6/3⌋ = 2 (the per-fill
floor loses value that the direct floored mean keeps). -/
theorem claim_C1_counterexample :
    (apply_buy_fills initPosition [(1, 1), (1, 2), (1, 3)]).avg_price = 1 ∧
    total_cost [(1, 1), (1, 2), (1, 3)] / total_qty [(1, 1), (1, 2), (1, 3)] = 2 ∧
    (apply_buy_fills initPosition [(1, 1), (1, 2), (1, 3)]).avg_price ≠
      total_cost [(1, 1), (1, 2), (1, 3)] / total_qty [(1, 1), (1, 2), (1, 3)] := by
  refine ⟨rfl, rfl, ?_⟩
  decide

/-- C1 (amended): for every BUY fill the new quantity is the prior
quantity plus the filled quantity and the new average cost follows the
stated recurrence (the fill price when flat, otherwise the floored
weighted combination); over a sequence of BUY fills from flat the
resulting quantity is the total filled quantity and the resulting average
cost is AT MOST (not always equal to) the integer-floored
quantity-weighted mean of the fill prices, with equality in the spec's
example BUY 10@100 then 10@120 ⇒ qty=20, avg=110. -/
theorem claim_C1 :
    (∀ pos q p, (on_buy_fill pos q p).qty = pos.qty + q ∧
      (on_buy_fill pos q p).avg_price =
        (if pos.qty = 0 then p else (pos.avg_price * pos.qty + p * q) / (pos.qty + q))) ∧
    (∀ fills, 0 < total_qty fills →
      (apply_buy_fills initPosition fills).qty = total_qty fills ∧
      (apply_buy_fills initPosition fills).avg_price ≤
        total_cost fills / total_qty fills) ∧
    apply_buy_fills initPosition [(10, 100), (10, 120)] =
      (⟨20, 110, [], false, false⟩ : Position) := by
  refine ⟨fun pos q p => ⟨on_buy_fill_qty pos q p, on_buy_fill_avg pos q p⟩,
    fun fills hf => ?_, by decide⟩
  have hqty : (apply_buy_fills initPosition fills).qty = total_qty fills := by
    rw [apply_buy_fills_qty]
    simp [initPosition]
  refine ⟨hqty, ?_⟩
  have hcost := apply_buy_fills_cost_le fills initPosition 0 (Nat.le_refl 0)
  rw [Nat.zero_add, hqty] at hcost
  exact (Nat.le_div_iff_mul_le hf).mpr hcost

/-- Witness for C1 at the spec's own example. -/
theorem claim_C1_witness :
    (apply_buy_fills initPosition [(10, 100), (10, 120)]).qty =
      total_qty [(10, 100), (10, 120)] ∧
    (apply_buy_fills initPosition [(10, 100), (10, 120)]).avg_price ≤
      total_cost [(10, 100), (10, 120)] / total_qty [(10, 100), (10, 120)] :=
  claim_C1.2.1 [(10, 100), (10, 120)] (by decide)

/-- C2, counterexample to the outstanding-set clause: `trigger_buy` from
the flat initial position submits the entry ladder and records the order
id while the quantity is still 0, so a reachable state has `qty = 0` with
a non-empty `buy_orders`. -/
theorem claim_C2_counterexample :
    ReachablePos TARGET_PROFIT_FIRST TARGET_PROFIT_SECOND
      (⟨0, 0, ["A"], false, false⟩ : Position) ∧
    ((⟨0, 0, ["A"], false, false⟩ : Position)).qty = 0 ∧
    ((⟨0, 0, ["A"], false, false⟩ : Position)).buy_orders ≠ [] := by
  refine ⟨?_, rfl, by decide⟩
  have h : ReachablePos TARGET_PROFIT_FIRST TARGET_PROFIT_SECOND
      (trigger_buy initPosition [(100, 10)] (fun _ => some "A")) :=
    ReachablePos.entry [(100, 10)] (fun _ => some "A") ReachablePos.init
  have he : trigger_buy initPosition [(100, 10)] (fun _ => some "A") =
      (⟨0, 0, ["A"], false, false⟩ : Position) := by decide
  rw [he] at h
  exact h

/-- C2 (amended): in every state reachable through the position-mutating
operations (with fills of positive executed quantity), `qty = 0` implies
`avg_price = 0` and both exit flags false — but the outstanding-order set
may be non-empty while entry orders are in flight; a SELL fill consuming
the whole quantity resets the position to the initial state, and a BUY
from a flat reachable state starts with both flags false. -/
theorem claim_C2 (ft st : ℚ) (pos : Position) (h : ReachablePos ft st pos) :
    (pos.qty = 0 → pos.avg_price = 0 ∧ pos.first_sold = false ∧ pos.second_sold = false) ∧
    (∀ q p, pos.qty ≤ q → on_sell_fill pos q p = initPosition) ∧
    (pos.qty = 0 → ∀ q p, (on_buy_fill pos q p).first_sold = false ∧
      (on_buy_fill pos q p).second_sold = false) := by
  refine ⟨reachable_flatInv h, fun q p hq => ?_, fun h0 q p => ?_⟩
  · simp [on_sell_fill, Nat.sub_eq_zero_of_le hq, initPosition]
  · obtain ⟨_, hfs, hss⟩ := reachable_flatInv h h0
    exact ⟨(on_buy_fill_flags pos q p).1.trans hfs, (on_buy_fill_flags pos q p).2.trans hss⟩

/-- Witness for C2 at the initial (flat) state. -/
theorem claim_C2_witness :
    (initPosition.avg_price = 0 ∧ initPosition.first_sold = false ∧
      initPosition.second_sold = false) ∧
    on_sell_fill initPosition 1 100 = initPosition ∧
    (on_buy_fill initPosition 2 50).first_sold = false :=
  ⟨(claim_C2 TARGET_PROFIT_FIRST TARGET_PROFIT_SECOND initPosition ReachablePos.init).1 rfl,
   (claim_C2 TARGET_PROFIT_FIRST TARGET_PROFIT_SECOND initPosition ReachablePos.init).2.1
      1 100 (by decide),
   ((claim_C2 TARGET_PROFIT_FIRST TARGET_PROFIT_SECOND initPosition ReachablePos.init).2.2
      rfl 2 50).1⟩

/-- C4: the entry admission check refuses exactly when the quantity is
positive or the outstanding-order set is non-empty; when it refuses,
`trigger_buy` is a no-op; and `trigger_buy` never touches quantity,
average cost or the exit flags (its only position effect is recording the
submitted order ids). -/
theorem claim_C4 :
    (∀ pos, try_begin_entry pos = false ↔ (0 < pos.qty ∨ pos.buy_orders ≠ [])) ∧
    (∀ pos bids resp, try_begin_entry pos = false → trigger_buy pos bids resp = pos) ∧
    (∀ pos bids resp, (trigger_buy pos bids resp).qty = pos.qty ∧
      (trigger_buy pos bids resp).avg_price = pos.avg_price ∧
      (trigger_buy pos bids resp).first_sold = pos.first_sold ∧
      (trigger_buy pos bids resp).second_sold = pos.second_sold) := by
  refine ⟨fun pos => ?_, fun pos bids resp hf => ?_, fun pos bids resp =>
    ⟨trigger_buy_qty pos bids resp, trigger_buy_avg pos bids resp,
     trigger_buy_first_sold pos bids resp, trigger_buy_second_sold pos bids resp⟩⟩
  · by_cases hc : 0 < pos.qty ∨ pos.buy_orders ≠ [] <;> simp [try_begin_entry, hc]
  · by_cases hc : 0 < pos.qty ∨ pos.buy_orders ≠ []
    · simp [trigger_buy, hc]
    · simp [try_begin_entry, hc] at hf

/-- Witness for C4: a held position refuses the entry and `trigger_buy`
leaves it unchanged. -/
theorem claim_C4_witness :
    trigger_buy (⟨1, 700, [], false, false⟩ : Position) [(100, 5)] (fun _ => some "X") =
      (⟨1, 700, [], false, false⟩ : Position) :=
  claim_C4.2.1 _ [(100, 5)] (fun _ => some "X") (by decide)

/-- C5, counterexample: a BUY fill whose order id is in `buy_orders` does
NOT remove it — the BUY branch of `on_order_filled` never touches
`buy_orders`, so the id is still present afterwards. -/
theorem claim_C5_counterexample :
    on_order_filled
      (fun s => if s = "005930" then some (⟨0, 0, ["ord1"], false, false⟩ : Position)
                else none)
      "ord1" "005930" "BUY" 1 100 "005930" =
      some (⟨1, 100, ["ord1"], false, false⟩ : Position) ∧
    "ord1" ∈ ((⟨1, 100, ["ord1"], false, false⟩ : Position)).buy_orders := by
  exact ⟨by decide, by decide⟩

/-- C5 (amended): a BUY fill updates the symbol's entry with quantity and
average cost recomputed but leaves the outstanding-order set unchanged;
order ids are only discarded when a SELL fill empties the position. -/
theorem claim_C5 (positions : String → Option Position) (oid symbol : String)
    (q p : Nat) (pos : Position) (h : positions symbol = some pos) :
    on_order_filled positions oid symbol "BUY" q p symbol = some (on_buy_fill pos q p) ∧
    (on_buy_fill pos q p).buy_orders = pos.buy_orders := by
  refine ⟨?_, rfl⟩
  simp [on_order_filled, h, fill_position]

/-- Witness for C5 on a concrete one-symbol position map. -/
theorem claim_C5_witness :
    on_order_filled (fun _ => some initPosition) "o1" "S" "BUY" 2 50 "S" =
      some (on_buy_fill initPosition 2 50) ∧
    (on_buy_fill initPosition 2 50).buy_orders = initPosition.buy_orders :=
  claim_C5 (fun _ => some initPosition) "o1" "S" 2 50 initPosition rfl

/-- C6, counterexample: the tick handler sets the first exit flag even
when the market-sell submission is rejected (`return_code = -1`) — the
broker's response is bound to `res` and never inspected, so the exit-flag
mutation happens on submission failure as well. -/
theorem claim_C6_counterexample :
    ((⟨10, 100, [], false, false⟩ : Position)).first_sold = false ∧
    (on_real_tick TARGET_PROFIT_FIRST TARGET_PROFIT_SECOND { return_code := -1 }
      (⟨10, 100, [], false, false⟩ : Position) 102).1.first_sold = true := by
  refine ⟨rfl, ?_⟩
  norm_num [on_real_tick, exit_threshold, TARGET_PROFIT_FIRST]

/-- C6 (amended): on any tick — in particular on a rejected submission —
the handler never mutates quantity, average cost or the outstanding-order
set, and its behaviour is entirely independent of the broker's response
(`res` is ignored); the exit flags, however, ARE set whenever a sell is
attempted, regardless of the submission outcome. -/
theorem claim_C6 (ft st : ℚ) (res rejected : OrderResult) (pos : Position) (price : Nat) :
    on_real_tick ft st rejected pos price = on_real_tick ft st res pos price ∧
    (on_real_tick ft st rejected pos price).1.qty = pos.qty ∧
    (on_real_tick ft st rejected pos price).1.avg_price = pos.avg_price ∧
    (on_real_tick ft st rejected pos price).1.buy_orders = pos.buy_orders :=
  ⟨rfl, on_real_tick_fst_qty ft st rejected pos price,
    on_real_tick_fst_avg ft st rejected pos price,
    on_real_tick_fst_buy_orders ft st rejected pos price⟩

/-- C10: a fill notification for a symbol with no entry in the position
map leaves the whole map unchanged (the handler is total: the
`positions.get(symbol)` `None` branch simply returns). -/
theorem claim_C10 (positions : String → Option Position) (order_id symbol side : String)
    (q p : Nat) (h : positions symbol = none) (s : String) :
    on_order_filled positions order_id symbol side q p s = positions s := by
  simp [on_order_filled, h]

/-- Witness for C10 on the empty position map. -/
theorem claim_C10_witness :
    on_order_filled (fun _ => none) "o7" "035720" "SELL" 3 500 "035720" = none :=
  claim_C10 (fun _ => none) "o7" "035720" "SELL" 3 500 rfl "035720"

/-- C3: with a held position (`qty > 0`, `avg_price > 0`), a tick at or
above the first target with the first flag clear sells half the quantity
rounded down (the full quantity when it is 1) and sets the first flag;
with the first flag set and the second clear, a tick at or above the
second target sells the whole remaining quantity and sets the second
flag.  (Thresholds are `int(avg_price * (1 + target))`, modelled in exact
rational arithmetic.) -/
theorem claim_C3 (ft st : ℚ) (res : OrderResult) (pos : Position) (price : Nat)
    (hq : 0 < pos.qty) (ha : 0 < pos.avg_price) :
    (pos.first_sold = false → exit_threshold pos.avg_price ft ≤ (price : Int) →
      on_real_tick ft st res pos price =
        ({ pos with first_sold := true },
          ExitAction.sellFirst (if 1 < pos.qty then pos.qty / 2 else pos.qty))) ∧
    (pos.first_sold = true → pos.second_sold = false →
      exit_threshold pos.avg_price st ≤ (price : Int) →
      on_real_tick ft st res pos price =
        ({ pos with second_sold := true }, ExitAction.sellSecond pos.qty)) := by
  have hguard : ¬(pos.qty ≤ 0 ∨ pos.avg_price ≤ 0) := by omega
  constructor
  · intro hfs hthr
    have hsq : 0 < (if 1 < pos.qty then pos.qty / 2 else pos.qty) := by
      by_cases h1 : 1 < pos.qty
      · rw [if_pos h1]
        exact Nat.div_pos h1 (by omega)
      · rw [if_neg h1]
        exact hq
    simp only [on_real_tick, if_neg hguard, if_pos (And.intro hfs hthr), if_pos hsq]
  · intro hfs hss hthr
    have hnot1 : ¬(pos.first_sold = false ∧ (price : Int) ≥ exit_threshold pos.avg_price ft) := by
      intro hcontra
      rw [hfs] at hcontra
      exact Bool.noConfusion hcontra.1
    simp only [on_real_tick, if_neg hguard, if_neg hnot1, if_pos (And.intro hfs hss),
      if_pos (And.intro hq hthr)]

/-- Witness for C3: the spec's concrete scenario — avg 100, targets
2%/3%, qty 10: a tick at 102 sells 5 and sets the first flag; after the
SELL fill brings the quantity to 5, a tick at 103 sells the remaining 5
and sets the second flag. -/
theorem claim_C3_witness :
    on_real_tick TARGET_PROFIT_FIRST TARGET_PROFIT_SECOND { return_code := 0 }
      (⟨10, 100, [], false, false⟩ : Position) 102 =
      ((⟨10, 100, [], true, false⟩ : Position), ExitAction.sellFirst 5) ∧
    on_sell_fill (⟨10, 100, [], true, false⟩ : Position) 5 102 =
      (⟨5, 100, [], true, false⟩ : Position) ∧
    on_real_tick TARGET_PROFIT_FIRST TARGET_PROFIT_SECOND { return_code := 0 }
      (⟨5, 100, [], true, false⟩ : Position) 103 =
      ((⟨5, 100, [], true, true⟩ : Position), ExitAction.sellSecond 5) := by
  refine ⟨?_, by decide, ?_⟩
  · exact (claim_C3 TARGET_PROFIT_FIRST TARGET_PROFIT_SECOND { return_code := 0 }
      (⟨10, 100, [], false, false⟩ : Position) 102 (by decide) (by decide)).1 rfl
      (by norm_num [exit_threshold, TARGET_PROFIT_FIRST])
  · exact (claim_C3 TARGET_PROFIT_FIRST TARGET_PROFIT_SECOND { return_code := 0 }
      (⟨5, 100, [], true, false⟩ : Position) 103 (by decide) (by decide)).2 rfl rfl
      (by norm_num [exit_threshold, TARGET_PROFIT_SECOND])

/-- C7, counterexample: with the stream enabled, logged in and
subscribed, a transport drop (`ConnectionClosed`) leaves the streamer
still enabled (`keep_running = true`) but disconnected, with exactly ONE
connect attempt ever made — no new connect attempt and no resubscription
follow, because `receive_messages` breaks out of its loop and `run`
returns. -/
theorem claim_C7_counterexample :
    (ws_run ["005930"] (fun _ => true)
      [WsEvent.msg (WsMsg.loginReply 0), WsEvent.closed]).keep_running = true ∧
    (ws_run ["005930"] (fun _ => true)
      [WsEvent.msg (WsMsg.loginReply 0), WsEvent.closed]).connected = false ∧
    (ws_run ["005930"] (fun _ => true)
      [WsEvent.msg (WsMsg.loginReply 0), WsEvent.closed]).connectAttempts = 1 := by
  exact ⟨rfl, rfl, rfl⟩

/-- C7 (amended): `run` performs exactly one `websockets.connect` attempt
no matter what the connection returns — there is no reconnection — and
inside an enabled, connected receive loop a `ConnectionClosed` moves the
state to disconnected and exits the loop, leaving the remaining events
unprocessed. -/
theorem claim_C7 (symbols : List String) (env : Nat → Bool) (events : List WsEvent)
    (s : WsState) (rest : List WsEvent) (hk : s.keep_running = true)
    (hc : s.connected = true) :
    (ws_run symbols env events).connectAttempts = 1 ∧
    ws_receive symbols env s (WsEvent.closed :: rest) =
      ({ s with connected := false }, rest) := by
  constructor
  · by_cases h0 : env 0
    · have hconn : ws_connect env initWs =
          { connected := true, keep_running := true, connectAttempts := 1,
            sent := [WsPacket.login] } := by
        simp [ws_connect, initWs, h0]
      rw [ws_run, hconn]
      simp only [if_pos rfl]
      exact ws_receive_connectAttempts symbols env events _
    · have hconn : ws_connect env initWs =
          { connected := false, keep_running := true, connectAttempts := 1,
            sent := [] } := by
        simp [ws_connect, initWs, h0]
      rw [ws_run, hconn]
      simp
  · show (if s.keep_running = true ∧ s.connected = true then
        ({ s with connected := false }, rest)
      else (s, WsEvent.closed :: rest)) = ({ s with connected := false }, rest)
    rw [if_pos (And.intro hk hc)]

/-- Witness for C7 at a concrete enabled, connected state. -/
theorem claim_C7_witness :
    (ws_run ["005930"] (fun _ => true) []).connectAttempts = 1 ∧
    ws_receive ["005930"] (fun _ => true)
      (⟨true, true, 1, [WsPacket.login]⟩ : WsState) [WsEvent.closed] =
      ((⟨false, true, 1, [WsPacket.login]⟩ : WsState), []) :=
  claim_C7 ["005930"] (fun _ => true) []
    (⟨true, true, 1, [WsPacket.login]⟩ : WsState) [] rfl rfl

/-- C8, counterexample: both refreshing contexts can be past their
provider request simultaneously with the lock free — the HTTP request of
`fetch_access_token` runs outside `LOCK` — so two contexts make TWO
provider calls, not one, and the refresh as a whole is not mutually
exclusive. -/
theorem claim_C8_counterexample :
    AuthReach (⟨none, FetchPc.requested, FetchPc.requested, 2, 0, 0⟩ : AuthState) ∧
    ((⟨none, FetchPc.requested, FetchPc.requested, 2, 0, 0⟩ : AuthState)).httpCalls = 2 := by
  refine ⟨?_, rfl⟩
  exact AuthReach.step
    (AuthReach.step AuthReach.init (AuthStep.request authInit false rfl))
    (AuthStep.request
      (setPc false FetchPc.requested { authInit with httpCalls := authInit.httpCalls + 1 })
      true rfl)

/-- C8 (amended): only the installation of the token/expiry pair (and
every reader) runs under `LOCK`; the provider request itself is outside
the critical section, so concurrent refreshes each call the provider.
What does hold is torn-read freedom: in every reachable state in which
the lock is free — i.e. whenever a reader could acquire it and read —
the token and its expiry form a matched pair. -/
theorem claim_C8 (s : AuthState) (h : AuthReach s) (hl : s.lock = none) :
    s.token = s.expiry :=
  (authReach_inv h).1 hl

/-- Witness for C8 at the initial state. -/
theorem claim_C8_witness : authInit.token = authInit.expiry :=
  claim_C8 authInit AuthReach.init rfl

/-- C9: the daily trend filter passes exactly when there are at least 20
daily bars, the 5-bar SMA exceeds the 20-bar SMA, and the latest close
exceeds the 5-bar SMA. -/
theorem claim_C9 (closes : List ℚ) :
    check_daily_uptrend closes = true ↔
      (20 ≤ closes.length ∧ sma_last closes 5 > sma_last closes 20 ∧
        closes.getD (closes.length - 1) 0 > sma_last closes 5) := by
  by_cases hlen : closes.length < 20
  · have hcond : closes.length = 0 ∨ closes.length < 20 := Or.inr hlen
    unfold check_daily_uptrend
    rw [if_pos hcond]
    constructor
    · intro hfalse
      exact absurd hfalse (by simp)
    · intro hcontra
      omega
  · have h20 : 20 ≤ closes.length := Nat.le_of_not_lt hlen
    have h0 : 0 < closes.length := by omega
    have hcond : ¬(closes.length = 0 ∨ closes.length < 20) := by omega
    unfold check_daily_uptrend
    rw [if_neg hcond, lastRow_rollingMean 5 closes h0 (by omega),
      lastRow_rollingMean 20 closes h0 h20]
    simp only [decide_eq_true_eq]
    constructor
    · rintro ⟨h1, h2⟩
      exact ⟨h20, h1, h2⟩
    · rintro ⟨_, h1, h2⟩
      exact ⟨h1, h2⟩
